import Mathlib

/-!
The `listtags` generator of `aws/internal/keyvaluetags`.

A shallow embedding of `aws/internal/keyvaluetags/generators/listtags/main.go`:
the hardcoded service table, the five attribute resolvers, the sort performed
by `main`, and the expansion of `templateBody` over the sorted table.

Not modelled: `format.Source` and the file write at the end of `main`, and the
four fatal exits (they depend only on library calls).
-/

namespace ListTags

/-! ## Service table -/

/-- The output file name. -/
def filename : String := "list_tags_gen.go"

/-- The hardcoded service table, in the order of the source. -/
def serviceNames : List String := [
  "accessanalyzer",
  "acm",
  "acmpca",
  "amplify",
  "appmesh",
  "appstream",
  "appsync",
  "athena",
  "backup",
  "cloudhsmv2",
  "cloudtrail",
  "cloudwatch",
  "cloudwatchevents",
  "cloudwatchlogs",
  "codecommit",
  "codedeploy",
  "codepipeline",
  "cognitoidentity",
  "cognitoidentityprovider",
  "configservice",
  "databasemigrationservice",
  "dataexchange",
  "datasync",
  "dax",
  "devicefarm",
  "directconnect",
  "directoryservice",
  "dlm",
  "docdb",
  "dynamodb",
  "ecr",
  "ecs",
  "efs",
  "eks",
  "elasticache",
  "elasticbeanstalk",
  "elasticsearchservice",
  "elbv2",
  "firehose",
  "fsx",
  "glue",
  "guardduty",
  "greengrass",
  "imagebuilder",
  "inspector",
  "iot",
  "iotanalytics",
  "iotevents",
  "kafka",
  "kinesis",
  "kinesisanalytics",
  "kinesisanalyticsv2",
  "kms",
  "lambda",
  "licensemanager",
  "mediaconnect",
  "mediaconvert",
  "medialive",
  "mediapackage",
  "mediastore",
  "mq",
  "neptune",
  "opsworks",
  "organizations",
  "qldb",
  "rds",
  "resourcegroups",
  "route53",
  "route53resolver",
  "sagemaker",
  "securityhub",
  "sfn",
  "sns",
  "sqs",
  "ssm",
  "storagegateway",
  "swf",
  "transfer",
  "waf",
  "wafregional",
  "wafv2",
  "workspaces"]

/-- The data handed to the template. -/
structure TemplateData where
  ServiceNames : List String

/-! ## Attribute resolvers -/

/-- ServiceListTagsFunction determines the service tagging function. -/
def ServiceListTagsFunction (serviceName : String) : String :=
  match serviceName with
  | "acm" => "ListTagsForCertificate"
  | "acmpca" => "ListTags"
  | "backup" => "ListTags"
  | "cloudhsmv2" => "ListTags"
  | "cloudtrail" => "ListTags"
  | "cloudwatchlogs" => "ListTagsLogGroup"
  | "dax" => "ListTags"
  | "directconnect" => "DescribeTags"
  | "dynamodb" => "ListTagsOfResource"
  | "efs" => "DescribeTags"
  | "elasticsearchservice" => "ListTags"
  | "elbv2" => "DescribeTags"
  | "firehose" => "ListTagsForDeliveryStream"
  | "glue" => "GetTags"
  | "kinesis" => "ListTagsForStream"
  | "kms" => "ListResourceTags"
  | "lambda" => "ListTags"
  | "mq" => "ListTags"
  | "opsworks" => "ListTags"
  | "redshift" => "DescribeTags"
  | "resourcegroups" => "GetTags"
  | "sagemaker" => "ListTags"
  | "sqs" => "ListQueueTags"
  | "workspaces" => "DescribeTags"
  | _ => "ListTagsForResource"

/-- ServiceListTagsInputIdentifierField determines the service tag identifier field. -/
def ServiceListTagsInputIdentifierField (serviceName : String) : String :=
  match serviceName with
  | "acm" => "CertificateArn"
  | "acmpca" => "CertificateAuthorityArn"
  | "athena" => "ResourceARN"
  | "cloudhsmv2" => "ResourceId"
  | "cloudtrail" => "ResourceIdList"
  | "cloudwatch" => "ResourceARN"
  | "cloudwatchevents" => "ResourceARN"
  | "cloudwatchlogs" => "LogGroupName"
  | "dax" => "ResourceName"
  | "devicefarm" => "ResourceARN"
  | "directconnect" => "ResourceArns"
  | "directoryservice" => "ResourceId"
  | "docdb" => "ResourceName"
  | "efs" => "FileSystemId"
  | "elasticache" => "ResourceName"
  | "elasticsearchservice" => "ARN"
  | "elbv2" => "ResourceArns"
  | "firehose" => "DeliveryStreamName"
  | "fsx" => "ResourceARN"
  | "kinesis" => "StreamName"
  | "kinesisanalytics" => "ResourceARN"
  | "kinesisanalyticsv2" => "ResourceARN"
  | "kms" => "KeyId"
  | "lambda" => "Resource"
  | "mediaconvert" => "Arn"
  | "mediastore" => "Resource"
  | "neptune" => "ResourceName"
  | "organizations" => "ResourceId"
  | "rds" => "ResourceName"
  | "redshift" => "ResourceName"
  | "resourcegroups" => "Arn"
  | "route53" => "ResourceId"
  | "sqs" => "QueueUrl"
  | "ssm" => "ResourceId"
  | "storagegateway" => "ResourceARN"
  | "transfer" => "Arn"
  | "workspaces" => "ResourceId"
  | "waf" => "ResourceARN"
  | "wafregional" => "ResourceARN"
  | "wafv2" => "ResourceARN"
  | _ => "ResourceArn"

/-- ServiceListTagsInputIdentifierRequiresSlice determines if the service tagging resource
field requires a slice. -/
def ServiceListTagsInputIdentifierRequiresSlice (serviceName : String) : String :=
  match serviceName with
  | "cloudtrail" => "yes"
  | "directconnect" => "yes"
  | "elbv2" => "yes"
  | _ => ""

/-- ServiceListTagsInputResourceTypeField determines the service tagging resource type field. -/
def ServiceListTagsInputResourceTypeField (serviceName : String) : String :=
  match serviceName with
  | "route53" => "ResourceType"
  | "ssm" => "ResourceType"
  | _ => ""

/-- ServiceListTagsOutputTagsField determines the service tag field. -/
def ServiceListTagsOutputTagsField (serviceName : String) : String :=
  match serviceName with
  | "cloudhsmv2" => "TagList"
  | "cloudtrail" => "ResourceTagList[0].TagsList"
  | "databasemigrationservice" => "TagList"
  | "directconnect" => "ResourceTags[0].Tags"
  | "docdb" => "TagList"
  | "elasticache" => "TagList"
  | "elasticbeanstalk" => "ResourceTags"
  | "elasticsearchservice" => "TagList"
  | "elbv2" => "TagDescriptions[0].Tags"
  | "mediaconvert" => "ResourceTags.Tags"
  | "neptune" => "TagList"
  | "rds" => "TagList"
  | "route53" => "ResourceTagSet.Tags"
  | "ssm" => "TagList"
  | "waf" => "TagInfoForResource.TagList"
  | "wafregional" => "TagInfoForResource.TagList"
  | "wafv2" => "TagInfoForResource.TagList"
  | "workspaces" => "TagList"
  | _ => "Tags"

/-- The `case` labels of the switch in `ServiceListTagsFunction`, in source order. -/
def functionCases : List String := [
  "acm", "acmpca", "backup", "cloudhsmv2", "cloudtrail", "cloudwatchlogs", "dax",
  "directconnect", "dynamodb", "efs", "elasticsearchservice", "elbv2", "firehose", "glue",
  "kinesis", "kms", "lambda", "mq", "opsworks", "redshift", "resourcegroups", "sagemaker",
  "sqs", "workspaces"]

/-- The `case` labels of the switch in `ServiceListTagsInputIdentifierField`, in source
order. -/
def identifierFieldCases : List String := [
  "acm", "acmpca", "athena", "cloudhsmv2", "cloudtrail", "cloudwatch", "cloudwatchevents",
  "cloudwatchlogs", "dax", "devicefarm", "directconnect", "directoryservice", "docdb", "efs",
  "elasticache", "elasticsearchservice", "elbv2", "firehose", "fsx", "kinesis",
  "kinesisanalytics", "kinesisanalyticsv2", "kms", "lambda", "mediaconvert", "mediastore",
  "neptune", "organizations", "rds", "redshift", "resourcegroups", "route53", "sqs", "ssm",
  "storagegateway", "transfer", "workspaces", "waf", "wafregional", "wafv2"]

/-- The `case` labels of the switch in `ServiceListTagsInputIdentifierRequiresSlice`. -/
def requiresSliceCases : List String := ["cloudtrail", "directconnect", "elbv2"]

/-- The `case` labels of the switch in `ServiceListTagsInputResourceTypeField`. -/
def resourceTypeFieldCases : List String := ["route53", "ssm"]

/-- The `case` labels of the switch in `ServiceListTagsOutputTagsField`, in source order. -/
def outputTagsFieldCases : List String := [
  "cloudhsmv2", "cloudtrail", "databasemigrationservice", "directconnect", "docdb",
  "elasticache", "elasticbeanstalk", "elasticsearchservice", "elbv2", "mediaconvert",
  "neptune", "rds", "route53", "ssm", "waf", "wafregional", "wafv2", "workspaces"]

/-! ## `sort.Strings`

Go compares strings byte by byte. On valid UTF-8 that is the order of the code
points, and every service name is ASCII, so the comparison is written on the
characters of the string. -/

/-- Lexicographic `<` on rune sequences. -/
def runesLess : List Char → List Char → Bool
  | _, [] => false
  | [], _ :: _ => true
  | a :: x, b :: y => decide (a.toNat < b.toNat) || (decide (a.toNat = b.toNat) && runesLess x y)

/-- Go's `a < b` on strings, the `Less` of `sort.StringSlice`. -/
def stringLess (a b : String) : Bool := runesLess a.data b.data

/-- Insert `x` into an ascending list, after every element that is less than `x`. -/
def insertSorted (x : String) : List String → List String
  | [] => [x]
  | y :: l => if stringLess y x then y :: insertSorted x l else x :: y :: l

/-- The result of `sort.Strings`: the list rearranged in ascending order. The library
routine is free to use any algorithm; `sortStrings_unique` below shows that an ascending
rearrangement of a list is unique, so the result does not depend on that choice. -/
def sortStrings : List String → List String
  | [] => []
  | x :: l => insertSorted x (sortStrings l)

/-! ## Imported functions

`keyvaluetags.ServiceClientType` and `keyvaluetags.ServiceTagPackage` live in another
file of the package, and `strings.Title` consults the Unicode tables for runes above
`0x7F`. They are taken as parameters. -/

/-- What the generator imports. -/
structure Imports where
  /-- The function `keyvaluetags.ServiceClientType`. -/
  ServiceClientType : String → String
  /-- The function `keyvaluetags.ServiceTagPackage`. -/
  ServiceTagPackage : String → String
  /-- Whether a rune above `0x7F` separates words (`unicode.IsSpace`, unless it is a letter
  or a digit). -/
  isSeparatorUnicode : Char → Bool
  /-- The function `unicode.ToTitle` on runes above `0x7F`. -/
  toTitleUnicode : Char → Char

/-- The word-separator test of `strings.Title`: ASCII alphanumerics and underscore are not
separators, every other ASCII rune is. -/
def isSeparator (E : Imports) (r : Char) : Bool :=
  if r.toNat ≤ 0x7F then
    if '0'.toNat ≤ r.toNat ∧ r.toNat ≤ '9'.toNat then false
    else if 'a'.toNat ≤ r.toNat ∧ r.toNat ≤ 'z'.toNat then false
    else if 'A'.toNat ≤ r.toNat ∧ r.toNat ≤ 'Z'.toNat then false
    else if r = '_' then false
    else true
  else E.isSeparatorUnicode r

/-- The function `unicode.ToTitle`: an ASCII lower-case letter is shifted to upper case and
any other ASCII rune is returned unchanged. -/
def toTitle (E : Imports) (r : Char) : Char :=
  if r.toNat ≤ 0x7F then
    if 'a'.toNat ≤ r.toNat ∧ r.toNat ≤ 'z'.toNat then Char.ofNat (r.toNat - ('a'.toNat - 'A'.toNat))
    else r
  else E.toTitleUnicode r

/-- The mapping closure of `strings.Title`, with `prev` the rune seen before. -/
def titleRunes (E : Imports) (prev : Char) : List Char → List Char
  | [] => []
  | r :: rest => (if isSeparator E prev then toTitle E r else r) :: titleRunes E r rest

/-- The function `strings.Title`: every rune that begins a word is mapped to title case. -/
def Title (E : Imports) (s : String) : String := String.mk (titleRunes E ' ' s.data)

/-! ## Template -/

/-- Truth of a string pipeline in an `if` action of `text/template`: a string of length
zero is false. -/
def truth (v : String) : Bool := decide (0 < v.length)

/-- The text before the first `range` action (the newline before the action is trimmed). -/
def templateHeader : String :=
  "\n// Code generated by generators/listtags/main.go; DO NOT EDIT.\n\npackage keyvaluetags\n\nimport (\n\t\"github.com/aws/aws-sdk-go/aws\""

/-- One pass of the first `range` action: the import line of a service. -/
def renderImport (s : String) : String :=
  "\n\t\"github.com/aws/aws-sdk-go/service/" ++ s ++ "\""

/-- The name of the accessor function declared for a service: `Title` of the service name
followed by `ListTags`. -/
def accessorName (E : Imports) (s : String) : String := Title E s ++ "ListTags"

/-- The optional second parameter of the accessor. -/
def resourceTypeParameter (s : String) : String :=
  if truth (ServiceListTagsInputResourceTypeField s) then ", resourceType string" else ""

/-- The line of the input literal that sets the identifier field. -/
def identifierAssignment (s : String) : String :=
  if truth (ServiceListTagsInputIdentifierRequiresSlice s) then
    "\n\t\t" ++ ServiceListTagsInputIdentifierField s ++ ":   aws.StringSlice([]string\x7bidentifier\x7d),"
  else
    "\n\t\t" ++ ServiceListTagsInputIdentifierField s ++ ":   aws.String(identifier),"

/-- The optional line of the input literal that sets the resource type field. -/
def resourceTypeAssignment (s : String) : String :=
  if truth (ServiceListTagsInputResourceTypeField s) then
    "\n\t\t" ++ ServiceListTagsInputResourceTypeField s ++ ": aws.String(resourceType),"
  else ""

/-- The text of the accessor from its `func` keyword to the end of its body. -/
def accessorDeclaration (E : Imports) (s : String) : String :=
  "func " ++ accessorName E s ++ "(conn " ++ E.ServiceClientType s ++ ", identifier string"
    ++ resourceTypeParameter s ++ ") (KeyValueTags, error) \x7b\n\tinput := &"
    ++ E.ServiceTagPackage s ++ "." ++ ServiceListTagsFunction s ++ "Input\x7b"
    ++ identifierAssignment s
    ++ resourceTypeAssignment s
    ++ "\n\t\x7d\n\n\toutput, err := conn." ++ ServiceListTagsFunction s
    ++ "(input)\n\n\tif err != nil \x7b\n\t\treturn New(nil), err\n\t\x7d\n\n\treturn "
    ++ Title E s ++ "KeyValueTags(output." ++ ServiceListTagsOutputTagsField s ++ "), nil\n\x7d"

/-- One pass of the second `range` action: the doc comment and the accessor of a service. -/
def renderAccessor (E : Imports) (s : String) : String :=
  "\n\n// " ++ accessorName E s ++ " lists " ++ s ++ " service tags.\n// The identifier is typically the Amazon Resource Name (ARN), although\n// it may also be a different identifier depending on the service.\n"
    ++ accessorDeclaration E s

/-- The accessors rendered by the second `range` action, one per element of the list. -/
def renderAccessors (E : Imports) (data : TemplateData) : List String :=
  data.ServiceNames.map (renderAccessor E)

/-- Executing `templateBody` on the template data. -/
def templateExecute (E : Imports) (data : TemplateData) : String :=
  templateHeader ++ String.join (data.ServiceNames.map renderImport) ++ "\n)\n"
    ++ String.join (renderAccessors E data) ++ "\n"

/-- The text `main` renders from a service table: the table is sorted, then the template is
executed on it. -/
def generate (E : Imports) (names : List String) : String :=
  templateExecute E ⟨sortStrings names⟩

/-- The function `strings.Contains` on rune sequences. -/
def runesContain (s substr : List Char) : Bool :=
  match s with
  | [] => substr.isEmpty
  | c :: rest => substr.isPrefixOf (c :: rest) || runesContain rest substr

/-- The function `strings.Contains`: whether `substr` occurs within `s`. -/
def Contains (s substr : String) : Bool := runesContain s.data substr.data

/-! ## Reading the rendered text

A function declaration of the rendered Go source starts a line with `func `, followed by
the name of the function and an opening parenthesis. -/

/-- Put a rune in front of the first line of a list of lines. -/
def pushRune (c : Char) : List (List Char) → List (List Char)
  | [] => [[c]]
  | l :: ls => (c :: l) :: ls

/-- Split a rune sequence into its lines, at every newline. -/
def splitLines (text : List Char) : List (List Char) :=
  text.foldr (fun c lines => if c = '\n' then [] :: lines else pushRune c lines) [[]]

/-- The function name a line declares: the runes between a leading `func ` and the first
opening parenthesis, when the line starts with `func `. -/
def declaredName (line : List Char) : Option String :=
  if "func ".data.isPrefixOf line then
    some (String.mk ((line.drop 5).takeWhile (fun c => c != '(')))
  else none

/-- The names of the functions a Go source text declares, in the order of the text. -/
def declaredFunctions (text : String) : List String :=
  (splitLines text.data).filterMap declaredName

/-- One-pass form of `declaredFunctions`: `cur` is the part of the current line read so far,
and a line gives the name it declares when it ends. -/
def scanLines (cur : List Char) : List Char → List String
  | [] => (declaredName cur).toList
  | c :: t =>
    if c = '\n' then (declaredName cur).toList ++ scanLines [] t
    else scanLines (cur ++ [c]) t

/-- A service name renders on whole lines: neither the name, nor its title, nor what the
imported functions return for it contains a newline, and the accessor name contains no
opening parenthesis. -/
def RendersOnLines (E : Imports) (s : String) : Prop :=
  '\n' ∉ s.data ∧ '\n' ∉ (accessorName E s).data ∧ '(' ∉ (accessorName E s).data ∧
  '\n' ∉ (Title E s).data ∧ '\n' ∉ (E.ServiceClientType s).data ∧
  '\n' ∉ (E.ServiceTagPackage s).data

/-- A sample of the imported functions, for evaluating the model: both package functions
return the service name and no rune above `0x7F` is a separator or has a title case. -/
def sampleImports : Imports where
  ServiceClientType := fun s => s
  ServiceTagPackage := fun s => s
  isSeparatorUnicode := fun _ => false
  toTitleUnicode := fun r => r

/-! ## Lemmas on sorting -/

/-- The comparison on rune sequences is the lexicographic order of the lists. -/
theorem runesLess_iff_lt : ∀ (a b : List Char), runesLess a b = true ↔ a < b
  | _, [] => by
      simp only [runesLess, Bool.false_eq_true, false_iff]
      exact List.Lex.not_nil_right _ _
  | [], b :: y => by
      simp only [runesLess, true_iff]
      exact List.nil_lt_cons b y
  | a :: x, b :: y => by
      have ih := runesLess_iff_lt x y
      have hlt : a.toNat < b.toNat ↔ a < b := Iff.rfl
      have heq : a.toNat = b.toNat ↔ a = b := by
        constructor
        · intro h
          exact Char.ext (UInt32.ext h)
        · intro h
          rw [h]
      simp only [runesLess, Bool.or_eq_true, Bool.and_eq_true, decide_eq_true_eq, hlt, heq, ih]
      constructor
      · rintro (h | ⟨rfl, h⟩)
        · exact List.Lex.rel h
        · exact List.Lex.cons h
      · intro h
        cases h with
        | rel h => exact Or.inl h
        | cons h => exact Or.inr ⟨rfl, h⟩

/-- The comparison `stringLess` is the order of strings. -/
theorem stringLess_iff_lt (a b : String) : stringLess a b = true ↔ a < b := by
  rw [String.lt_iff_toList_lt]
  exact runesLess_iff_lt a.data b.data

/-- The second string is not less than the first exactly when the first is at most the
second. -/
theorem stringLess_eq_false_iff_le (a b : String) : stringLess b a = false ↔ a ≤ b := by
  rw [← not_lt, ← stringLess_iff_lt, Bool.not_eq_true]

/-- Inserting with `insertSorted` is the ordered insertion for `≤`. -/
theorem insertSorted_eq_orderedInsert (x : String) (l : List String) :
    insertSorted x l = List.orderedInsert (· ≤ ·) x l := by
  induction l with
  | nil => rfl
  | cons y l ih =>
    simp only [insertSorted, List.orderedInsert, ih]
    by_cases h : stringLess y x = true
    · have : ¬ x ≤ y := not_le.mpr ((stringLess_iff_lt y x).mp h)
      simp [h, this]
    · have : x ≤ y := not_lt.mp (fun hlt => h ((stringLess_iff_lt y x).mpr hlt))
      simp [h, this]

/-- The model of `sort.Strings` is the insertion sort for `≤`. -/
theorem sortStrings_eq_insertionSort (l : List String) :
    sortStrings l = List.insertionSort (· ≤ ·) l := by
  induction l with
  | nil => rfl
  | cons x l ih => simp only [sortStrings, List.insertionSort, ih, insertSorted_eq_orderedInsert]

/-- Sorting rearranges the list. -/
theorem sortStrings_perm (l : List String) : (sortStrings l).Perm l := by
  rw [sortStrings_eq_insertionSort]; exact List.perm_insertionSort _ l

/-- Sorting returns an ascending list. -/
theorem sortStrings_sorted (l : List String) : List.Sorted (· ≤ ·) (sortStrings l) := by
  rw [sortStrings_eq_insertionSort]; exact List.sorted_insertionSort _ l

/-- An ascending rearrangement of a list is the list `sortStrings` returns. -/
theorem sortStrings_unique (p q : List String) (hq : q.Perm p) (hs : List.Sorted (· ≤ ·) q) :
    q = sortStrings p :=
  List.eq_of_perm_of_sorted (hq.trans (sortStrings_perm p).symm) hs (sortStrings_sorted p)

/-- Two rearrangements of one list sort to the same list. -/
theorem sortStrings_congr {p q : List String} (h : p.Perm q) : sortStrings p = sortStrings q :=
  sortStrings_unique q (sortStrings p) ((sortStrings_perm p).trans h) (sortStrings_sorted p)

/-- Sorting a list without duplicates returns a strictly ascending list. -/
theorem sortStrings_pairwise_less (l : List String) (hl : l.Nodup) :
    List.Pairwise (fun a b => stringLess a b = true) (sortStrings l) := by
  have hs : List.Sorted (· < ·) (sortStrings l) :=
    (sortStrings_sorted l).lt_of_le ((sortStrings_perm l).nodup_iff.mpr hl)
  exact List.Pairwise.imp (fun h => (stringLess_iff_lt _ _).mpr h) hs
/-! ## Lemmas on the resolvers -/

/-- An input that is no case label of `ServiceListTagsFunction` takes the default branch. -/
theorem function_default (s : String) (h : s ∉ functionCases) :
    ServiceListTagsFunction s = "ListTagsForResource" := by
  unfold ServiceListTagsFunction
  split <;> first | rfl | (exfalso; revert h; decide)

/-- An input that is no case label of `ServiceListTagsInputIdentifierField` takes the
default branch. -/
theorem identifierField_default (s : String) (h : s ∉ identifierFieldCases) :
    ServiceListTagsInputIdentifierField s = "ResourceArn" := by
  unfold ServiceListTagsInputIdentifierField
  split <;> first | rfl | (exfalso; revert h; decide)

/-- An input that is no case label of `ServiceListTagsInputIdentifierRequiresSlice` takes
the default branch. -/
theorem requiresSlice_default (s : String) (h : s ∉ requiresSliceCases) :
    ServiceListTagsInputIdentifierRequiresSlice s = "" := by
  unfold ServiceListTagsInputIdentifierRequiresSlice
  split <;> first | rfl | (exfalso; revert h; decide)

/-- An input that is no case label of `ServiceListTagsInputResourceTypeField` takes the
default branch. -/
theorem resourceTypeField_default (s : String) (h : s ∉ resourceTypeFieldCases) :
    ServiceListTagsInputResourceTypeField s = "" := by
  unfold ServiceListTagsInputResourceTypeField
  split <;> first | rfl | (exfalso; revert h; decide)

/-- An input that is no case label of `ServiceListTagsOutputTagsField` takes the default
branch. -/
theorem outputTagsField_default (s : String) (h : s ∉ outputTagsFieldCases) :
    ServiceListTagsOutputTagsField s = "Tags" := by
  unfold ServiceListTagsOutputTagsField
  split <;> first | rfl | (exfalso; revert h; decide)

/-- Every case label of a resolver selects a value other than that resolver's default, so
the lists of labels are exactly the inputs on which a resolver leaves its default. -/
theorem cases_override :
    (∀ k ∈ functionCases, ServiceListTagsFunction k ≠ "ListTagsForResource") ∧
    (∀ k ∈ identifierFieldCases, ServiceListTagsInputIdentifierField k ≠ "ResourceArn") ∧
    (∀ k ∈ requiresSliceCases, ServiceListTagsInputIdentifierRequiresSlice k = "yes") ∧
    (∀ k ∈ resourceTypeFieldCases, ServiceListTagsInputResourceTypeField k = "ResourceType") ∧
    (∀ k ∈ outputTagsFieldCases, ServiceListTagsOutputTagsField k ≠ "Tags") := by
  decide

/-- The service table has no duplicate entry. -/
theorem serviceNames_nodup : serviceNames.Nodup := by decide

/-- On the service table `strings.Title` capitalizes the first letter and nothing else. -/
theorem accessorName_serviceNames (E : Imports) :
    serviceNames.map (accessorName E) =
      serviceNames.map (fun s => s.capitalize ++ "ListTags") := by
  rfl

/-- The accessor names of the service table are pairwise distinct. -/
theorem accessorName_nodup (E : Imports) : (serviceNames.map (accessorName E)).Nodup := by
  rw [accessorName_serviceNames]
  decide

/-! ## Lemmas on the rendered text -/

/-- The empty text has one empty line. -/
theorem splitLines_nil : splitLines [] = [[]] := rfl

/-- Splitting reads the text one rune at a time. -/
theorem splitLines_cons (c : Char) (t : List Char) :
    splitLines (c :: t) = if c = '\n' then [] :: splitLines t else pushRune c (splitLines t) := rfl

/-- A text has at least one line. -/
theorem splitLines_ne_nil (t : List Char) : splitLines t ≠ [] := by
  cases t with
  | nil => simp [splitLines_nil]
  | cons c cs =>
    rw [splitLines_cons]
    split
    · simp
    · cases splitLines cs <;> simp [pushRune]

/-- The lines of two texts joined by a newline are the lines of the first followed by the
lines of the second. -/
theorem splitLines_append_newline (a b : List Char) :
    splitLines (a ++ '\n' :: b) = splitLines a ++ splitLines b := by
  induction a with
  | nil => simp [splitLines_cons, splitLines_nil]
  | cons c a ih =>
    by_cases hc : c = '\n'
    · simp [splitLines_cons, hc, ih]
    · simp only [List.cons_append, splitLines_cons, hc, if_false, ih]
      cases h : splitLines a with
      | nil => exact absurd h (splitLines_ne_nil a)
      | cons l ls => simp [pushRune]

/-- A text without a newline is its own single line. -/
theorem splitLines_oneLine (a : List Char) (h : '\n' ∉ a) : splitLines a = [a] := by
  induction a with
  | nil => rfl
  | cons c a ih =>
    have hc : c ≠ '\n' := fun e => h (by simp [e])
    have ha : '\n' ∉ a := fun e => h (by simp [e])
    simp [splitLines_cons, hc, ih ha, pushRune]

/-- The names declared by a single line. -/
theorem filterMap_declaredName_single (l : List Char) :
    [l].filterMap declaredName = (declaredName l).toList := by
  cases h : declaredName l <;> simp [List.filterMap, h]

/-- Scanning is splitting into lines and collecting the declared names. -/
theorem scanLines_eq (cur t : List Char) (h : '\n' ∉ cur) :
    scanLines cur t = (splitLines (cur ++ t)).filterMap declaredName := by
  induction t generalizing cur with
  | nil =>
    rw [List.append_nil, splitLines_oneLine cur h, filterMap_declaredName_single]
    rfl
  | cons c t ih =>
    by_cases hc : c = '\n'
    · subst hc
      rw [splitLines_append_newline, splitLines_oneLine cur h, List.filterMap_append,
        filterMap_declaredName_single]
      simp only [scanLines, if_true]
      rw [ih [] (by simp), List.nil_append]
    · have h2 : '\n' ∉ cur ++ [c] := by
        simp only [List.mem_append, List.mem_singleton, not_or]
        exact ⟨h, fun e => hc e.symm⟩
      simp only [scanLines, hc, if_false]
      rw [ih (cur ++ [c]) h2, List.append_assoc, List.singleton_append]

/-- The declared functions of a text are what a scan from the start of a line collects. -/
theorem declaredFunctions_eq_scan (text : String) :
    declaredFunctions text = scanLines [] text.data := by
  rw [scanLines_eq [] text.data (by simp), List.nil_append]
  rfl

/-- At a newline the scan closes the current line and starts an empty one. -/
theorem scanLines_newline (cur t : List Char) :
    scanLines cur ('\n' :: t) = (declaredName cur).toList ++ scanLines [] t := rfl

/-- The scan reads the text one rune at a time. -/
theorem scanLines_cons (cur : List Char) (c : Char) (t : List Char) :
    scanLines cur (c :: t) =
      if c = '\n' then (declaredName cur).toList ++ scanLines [] t
      else scanLines (cur ++ [c]) t := rfl

/-- A stretch of text without a newline is added to the current line. -/
theorem scanLines_segment (x : List Char) (hx : '\n' ∉ x) (cur t : List Char) :
    scanLines cur (x ++ t) = scanLines (cur ++ x) t := by
  induction x generalizing cur with
  | nil => simp
  | cons c x ih =>
    have hc : c ≠ '\n' := fun e => hx (by simp [e])
    have hx2 : '\n' ∉ x := fun e => hx (by simp [e])
    rw [List.cons_append, scanLines_cons, if_neg hc, ih hx2, List.append_assoc,
      List.singleton_append]

/-- A line that does not begin with the letter f declares nothing. -/
theorem declaredName_cons_ne (c : Char) (r : List Char) (hc : c ≠ 'f') :
    declaredName (c :: r) = none := by
  have : "func ".data.isPrefixOf (c :: r) = false := by
    show (('f' == c) && _) = false
    have : ('f' == c) = false := by
      rw [beq_eq_false_iff_ne]
      exact fun e => hc e.symm
    rw [this, Bool.false_and]
  unfold declaredName
  rw [this]
  rfl

/-- The runes before the first opening parenthesis. -/
theorem takeWhile_paren (n rest : List Char) (hn : '(' ∉ n) :
    (n ++ '(' :: rest).takeWhile (fun c => c != '(') = n := by
  induction n with
  | nil => simp [List.takeWhile]
  | cons c n ih =>
    have hc : c ≠ '(' := fun e => hn (by simp [e])
    have hn2 : '(' ∉ n := fun e => hn (by simp [e])
    have hb : (c != '(') = true := by simpa using hc
    rw [List.cons_append, List.takeWhile_cons, hb, ih hn2]
    rfl

/-- A line made of `func `, a name free of parentheses and an opening parenthesis declares
that name. -/
theorem declaredName_func (n : String) (rest : List Char) (hn : '(' ∉ n.data) :
    declaredName ('f' :: 'u' :: 'n' :: 'c' :: ' ' :: (n.data ++ '(' :: rest)) = some n := by
  have h1 : "func ".data.isPrefixOf ('f' :: 'u' :: 'n' :: 'c' :: ' ' :: (n.data ++ '(' :: rest))
      = true := by
    rw [List.isPrefixOf_iff_prefix]
    exact List.prefix_append "func ".data _
  unfold declaredName
  rw [if_pos h1]
  show some (String.mk ((n.data ++ '(' :: rest).takeWhile (fun c => c != '('))) = some n
  rw [takeWhile_paren n.data rest hn]

/-- An assignment line of the input literal declares nothing. -/
theorem assignment_line_scan (a b : String) (ha : '\n' ∉ a.data) (hb : '\n' ∉ b.data)
    (cur : List Char) (hcur : declaredName cur = none) :
    ∃ cur2, declaredName cur2 = none ∧
      ∀ t, scanLines cur (("\n\t\t" ++ a ++ b).data ++ t) = scanLines cur2 t := by
  refine ⟨(([] ++ "\t\t".data) ++ a.data) ++ b.data, declaredName_cons_ne '\t' _ (by decide),
    fun t => ?_⟩
  have key : ("\n\t\t" ++ a ++ b).data ++ t =
      '\n' :: ("\t\t".data ++ (a.data ++ (b.data ++ t))) := by
    simp only [String.data_append, List.append_assoc, List.cons_append, List.nil_append]
  rw [key, scanLines_newline, hcur, scanLines_segment "\t\t".data (by decide),
    scanLines_segment _ ha, scanLines_segment _ hb]
  rfl

/-- The assignment lines of the input literal declare nothing. -/
theorem assignments_scan (s : String)
    (hi : '\n' ∉ (ServiceListTagsInputIdentifierField s).data)
    (hr : '\n' ∉ (ServiceListTagsInputResourceTypeField s).data)
    (cur t : List Char) (hcur : declaredName cur = none) :
    scanLines cur ((identifierAssignment s).data ++
      ((resourceTypeAssignment s).data ++ '\n' :: t)) = scanLines [] t := by
  have h1 : ∃ cur2, declaredName cur2 = none ∧
      ∀ u, scanLines cur ((identifierAssignment s).data ++ u) = scanLines cur2 u := by
    unfold identifierAssignment
    split
    · exact assignment_line_scan _ _ hi (by decide) cur hcur
    · exact assignment_line_scan _ _ hi (by decide) cur hcur
  obtain ⟨cur2, hcur2, e2⟩ := h1
  have h2 : ∃ cur3, declaredName cur3 = none ∧
      ∀ u, scanLines cur2 ((resourceTypeAssignment s).data ++ u) = scanLines cur3 u := by
    unfold resourceTypeAssignment
    split
    · exact assignment_line_scan _ _ hr (by decide) cur2 hcur2
    · exact ⟨cur2, hcur2, fun u => rfl⟩
  obtain ⟨cur3, hcur3, e3⟩ := h2
  rw [e2, e3, scanLines_newline, hcur3]
  rfl

/-- The optional parameter contains no newline. -/
theorem resourceTypeParameter_oneLine (s : String) :
    '\n' ∉ (resourceTypeParameter s).data := by
  unfold resourceTypeParameter
  split <;> decide

set_option maxRecDepth 20000 in
/-- One pass of the second `range` action declares exactly the accessor of the service, and
ends inside the line of the closing brace. -/
theorem scan_renderAccessor (E : Imports) (s : String)
    (hs : '\n' ∉ s.data) (hn : '\n' ∉ (accessorName E s).data)
    (hp : '(' ∉ (accessorName E s).data) (ht : '\n' ∉ (Title E s).data)
    (hc : '\n' ∉ (E.ServiceClientType s).data) (hk : '\n' ∉ (E.ServiceTagPackage s).data)
    (hf : '\n' ∉ (ServiceListTagsFunction s).data)
    (hi : '\n' ∉ (ServiceListTagsInputIdentifierField s).data)
    (hr : '\n' ∉ (ServiceListTagsInputResourceTypeField s).data)
    (ho : '\n' ∉ (ServiceListTagsOutputTagsField s).data)
    (cur rest : List Char) (hcur : declaredName cur = none) :
    scanLines cur ((renderAccessor E s).data ++ rest) =
      accessorName E s :: scanLines "\x7d".data rest := by
  have hrp := resourceTypeParameter_oneLine s
  have key : (renderAccessor E s).data ++ rest =
        '\n' :: ('\n' :: ("// ".data ++ ((accessorName E s).data ++ (" lists ".data ++ (s.data
        ++ (" service tags.".data
        ++ ('\n' :: ("// The identifier is typically the Amazon Resource Name (ARN), although".data
        ++ ('\n' :: ("// it may also be a different identifier depending on the service.".data
        ++ ('\n' :: ("func ".data ++ ((accessorName E s).data ++ ("(conn ".data
        ++ ((E.ServiceClientType s).data ++ (", identifier string".data
        ++ ((resourceTypeParameter s).data ++ (") (KeyValueTags, error) \x7b".data
        ++ ('\n' :: ("\tinput := &".data ++ ((E.ServiceTagPackage s).data ++ (".".data
        ++ ((ServiceListTagsFunction s).data ++ ("Input\x7b".data
        ++ ((identifierAssignment s).data ++ ((resourceTypeAssignment s).data
        ++ ('\n' :: ("\t\x7d".data ++ ('\n' :: ('\n' :: ("\toutput, err := conn.".data
        ++ ((ServiceListTagsFunction s).data ++ ("(input)".data
        ++ ('\n' :: ('\n' :: ("\tif err != nil \x7b".data
        ++ ('\n' :: ("\t\treturn New(nil), err".data ++ ('\n' :: ("\t\x7d".data
        ++ ('\n' :: ('\n' :: ("\treturn ".data ++ ((Title E s).data
        ++ ("KeyValueTags(output.".data ++ ((ServiceListTagsOutputTagsField s).data
        ++ ("), nil".data ++ ('\n' :: ("\x7d".data
        ++ (rest)))))))))))))))))))))))))))))))))))))))))))))))))) := by
    simp only [renderAccessor, accessorDeclaration, String.data_append, List.append_assoc,
      List.cons_append, List.nil_append]
  rw [key]
  rw [
    scanLines_newline, scanLines_newline, scanLines_segment "// ".data (by decide),
    scanLines_segment _ hn, scanLines_segment " lists ".data (by decide), scanLines_segment _ hs,
    scanLines_segment " service tags.".data (by decide), scanLines_newline,
    scanLines_segment "// The identifier is typically the Amazon Resource Name (ARN), although".data (by decide),
    scanLines_newline,
    scanLines_segment "// it may also be a different identifier depending on the service.".data (by decide),
    scanLines_newline, scanLines_segment "func ".data (by decide), scanLines_segment _ hn,
    scanLines_segment "(conn ".data (by decide), scanLines_segment _ hc,
    scanLines_segment ", identifier string".data (by decide), scanLines_segment _ hrp,
    scanLines_segment ") (KeyValueTags, error) \x7b".data (by decide), scanLines_newline,
    scanLines_segment "\tinput := &".data (by decide), scanLines_segment _ hk,
    scanLines_segment ".".data (by decide), scanLines_segment _ hf,
    scanLines_segment "Input\x7b".data (by decide), assignments_scan s hi hr,
    scanLines_segment "\t\x7d".data (by decide), scanLines_newline, scanLines_newline,
    scanLines_segment "\toutput, err := conn.".data (by decide), scanLines_segment _ hf,
    scanLines_segment "(input)".data (by decide), scanLines_newline, scanLines_newline,
    scanLines_segment "\tif err != nil \x7b".data (by decide), scanLines_newline,
    scanLines_segment "\t\treturn New(nil), err".data (by decide), scanLines_newline,
    scanLines_segment "\t\x7d".data (by decide), scanLines_newline, scanLines_newline,
    scanLines_segment "\treturn ".data (by decide), scanLines_segment _ ht,
    scanLines_segment "KeyValueTags(output.".data (by decide), scanLines_segment _ ho,
    scanLines_segment "), nil".data (by decide), scanLines_newline,
    scanLines_segment "\x7d".data (by decide)]
  case hcur => exact declaredName_cons_ne '\t' _ (by decide)
  have tn : (none : Option String).toList = [] := rfl
  have ts : ∀ x : String, (some x).toList = [x] := fun _ => rfl
  have dn : declaredName [] = none := rfl
  simp only [List.append_assoc, List.cons_append, List.nil_append, declaredName_func _ _ hp,
    declaredName_cons_ne, hcur, dn, tn, ts, ne_eq, Char.reduceEq, not_false_eq_true]

/-- No value of `ServiceListTagsFunction` contains a newline. -/
theorem function_oneLine (s : String) : '\n' ∉ (ServiceListTagsFunction s).data := by
  by_cases h : s ∈ functionCases
  · revert s
    decide
  · rw [function_default s h]
    decide

/-- No value of `ServiceListTagsInputIdentifierField` contains a newline. -/
theorem identifierField_oneLine (s : String) :
    '\n' ∉ (ServiceListTagsInputIdentifierField s).data := by
  by_cases h : s ∈ identifierFieldCases
  · revert s
    decide
  · rw [identifierField_default s h]
    decide

/-- No value of `ServiceListTagsInputResourceTypeField` contains a newline. -/
theorem resourceTypeField_oneLine (s : String) :
    '\n' ∉ (ServiceListTagsInputResourceTypeField s).data := by
  by_cases h : s ∈ resourceTypeFieldCases
  · revert s
    decide
  · rw [resourceTypeField_default s h]
    decide

/-- No value of `ServiceListTagsOutputTagsField` contains a newline. -/
theorem outputTagsField_oneLine (s : String) :
    '\n' ∉ (ServiceListTagsOutputTagsField s).data := by
  by_cases h : s ∈ outputTagsFieldCases
  · revert s
    decide
  · rw [outputTagsField_default s h]
    decide

/-- The template header declares nothing and ends inside the first import line. -/
theorem scan_header (t : List Char) :
    scanLines [] (templateHeader.data ++ t) =
      scanLines "\t\"github.com/aws/aws-sdk-go/aws\"".data t := by
  have key : templateHeader.data ++ t =
      '\n' :: ("// Code generated by generators/listtags/main.go; DO NOT EDIT.".data ++
        ('\n' :: ('\n' :: ("package keyvaluetags".data ++ ('\n' :: ('\n' :: ("import (".data ++
        ('\n' :: ("\t\"github.com/aws/aws-sdk-go/aws\"".data ++ t))))))))) := by
    simp only [templateHeader, List.append_assoc, List.cons_append, List.nil_append]
  rw [key, scanLines_newline, scanLines_segment _ (by decide), scanLines_newline,
    scanLines_newline, scanLines_segment "package keyvaluetags".data (by decide),
    scanLines_newline, scanLines_newline, scanLines_segment "import (".data (by decide),
    scanLines_newline, scanLines_segment "\t\"github.com/aws/aws-sdk-go/aws\"".data (by decide)]
  rfl

/-- The import lines declare nothing. -/
theorem scan_imports (names : List String) (hs : ∀ s ∈ names, '\n' ∉ s.data)
    (cur : List Char) (hcur : declaredName cur = none) :
    ∃ cur2, declaredName cur2 = none ∧
      ∀ t, scanLines cur (((names.map renderImport).map String.data).flatten ++ t) =
        scanLines cur2 t := by
  induction names generalizing cur with
  | nil => exact ⟨cur, hcur, fun t => rfl⟩
  | cons s names ih =>
    have h1 : '\n' ∉ s.data := hs s (List.mem_cons_self s names)
    obtain ⟨cur2, hcur2, e2⟩ := ih (fun x hx => hs x (List.mem_cons_of_mem s hx))
      (([] ++ "\t\"github.com/aws/aws-sdk-go/service/".data) ++ s.data ++ "\"".data)
      (declaredName_cons_ne '\t' _ (by decide))
    refine ⟨cur2, hcur2, fun t => ?_⟩
    have key : (((s :: names).map renderImport).map String.data).flatten ++ t =
        '\n' :: ("\t\"github.com/aws/aws-sdk-go/service/".data ++ (s.data ++ ("\"".data ++
          (((names.map renderImport).map String.data).flatten ++ t)))) := by
      simp only [List.map_cons, List.flatten_cons, renderImport, String.data_append,
        List.append_assoc, List.cons_append, List.nil_append]
    rw [key, scanLines_newline, hcur,
      scanLines_segment "\t\"github.com/aws/aws-sdk-go/service/".data (by decide),
      scanLines_segment _ h1, scanLines_segment "\"".data (by decide), e2]
    rfl

/-- The second `range` action declares the accessors of the names, in order. -/
theorem scan_accessors (E : Imports) (names : List String)
    (hs : ∀ s ∈ names, RendersOnLines E s) (cur : List Char) (hcur : declaredName cur = none) :
    ∃ cur2, declaredName cur2 = none ∧
      ∀ t, scanLines cur (((names.map (renderAccessor E)).map String.data).flatten ++ t) =
        names.map (accessorName E) ++ scanLines cur2 t := by
  induction names generalizing cur with
  | nil => exact ⟨cur, hcur, fun t => rfl⟩
  | cons s names ih =>
    obtain ⟨h1, h2, h3, h4, h5, h6⟩ := hs s (List.mem_cons_self s names)
    obtain ⟨cur2, hcur2, e2⟩ := ih (fun x hx => hs x (List.mem_cons_of_mem s hx))
      "\x7d".data (declaredName_cons_ne _ _ (by decide))
    refine ⟨cur2, hcur2, fun t => ?_⟩
    rw [List.map_cons, List.map_cons, List.flatten_cons, List.append_assoc,
      scan_renderAccessor E s h1 h2 h3 h4 h5 h6 (function_oneLine s) (identifierField_oneLine s)
        (resourceTypeField_oneLine s) (outputTagsField_oneLine s) cur _ hcur,
      e2, List.map_cons, List.cons_append]

/-- The functions declared in the rendered text are the accessors of the names, in order. -/
theorem declaredFunctions_templateExecute (E : Imports) (names : List String)
    (hs : ∀ s ∈ names, RendersOnLines E s) :
    declaredFunctions (templateExecute E ⟨names⟩) = names.map (accessorName E) := by
  obtain ⟨cur2, hcur2, e2⟩ := scan_imports names (fun s h => (hs s h).1)
    "\t\"github.com/aws/aws-sdk-go/aws\"".data (declaredName_cons_ne _ _ (by decide))
  obtain ⟨cur3, hcur3, e3⟩ := scan_accessors E names hs [] rfl
  have key : (templateExecute E ⟨names⟩).data =
      templateHeader.data ++ (((names.map renderImport).map String.data).flatten ++
        ('\n' :: (")".data ++ ('\n' ::
          (((names.map (renderAccessor E)).map String.data).flatten ++ ('\n' :: [])))))) := by
    simp only [templateExecute, renderAccessors, String.data_append, String.data_join,
      List.append_assoc, List.cons_append, List.nil_append]
  rw [declaredFunctions_eq_scan, key, scan_header, e2, scanLines_newline, hcur2,
    scanLines_segment ")".data (by decide), scanLines_newline, e3, scanLines_newline, hcur3]
  have : declaredName ([] ++ ")".data) = none := rfl
  rw [this]
  simp [scanLines, declaredName]

/-- Every entry of the service table renders on whole lines when the imported functions
return text without a newline for it. -/
theorem serviceNames_rendersOnLines (E : Imports)
    (hE : ∀ s ∈ serviceNames,
      '\n' ∉ (E.ServiceClientType s).data ∧ '\n' ∉ (E.ServiceTagPackage s).data) :
    ∀ s ∈ serviceNames, RendersOnLines E s := by
  have hT : serviceNames.map (Title E) = serviceNames.map String.capitalize := by rfl
  have hA := accessorName_serviceNames E
  have d1 : ∀ s ∈ serviceNames, '\n' ∉ s.data := by decide
  have d2 : ∀ s ∈ serviceNames, '\n' ∉ (s.capitalize ++ "ListTags").data ∧
      '(' ∉ (s.capitalize ++ "ListTags").data := by decide
  have d3 : ∀ s ∈ serviceNames, '\n' ∉ (s.capitalize).data := by decide
  intro s hs
  have eA : accessorName E s = s.capitalize ++ "ListTags" := List.map_inj_left.mp hA s hs
  have eT : Title E s = s.capitalize := List.map_inj_left.mp hT s hs
  refine ⟨d1 s hs, ?_, ?_, ?_, (hE s hs).1, (hE s hs).2⟩
  · rw [eA]; exact (d2 s hs).1
  · rw [eA]; exact (d2 s hs).2
  · rw [eT]; exact d3 s hs

/-! ## The claims -/

/-- Claim C1: for the service `kms` the identifier field is `KeyId`, the identifier is a
scalar (the requires-slice resolver returns the empty string, so the template emits
`aws.String`), the API call is `ListResourceTags` and the output tags path is `Tags`. -/
theorem C1_kms_attributes :
    ServiceListTagsInputIdentifierField "kms" = "KeyId" ∧
    ServiceListTagsInputIdentifierRequiresSlice "kms" = "" ∧
    ServiceListTagsFunction "kms" = "ListResourceTags" ∧
    ServiceListTagsOutputTagsField "kms" = "Tags" ∧
    identifierAssignment "kms" = "\n\t\tKeyId:   aws.String(identifier)," := by
  decide

/-- Claim C2: for the service `route53` the identifier field is `ResourceId`, the resource
type field is `ResourceType` and the output tags path is `ResourceTagSet.Tags`. -/
theorem C2_route53_attributes :
    ServiceListTagsInputIdentifierField "route53" = "ResourceId" ∧
    ServiceListTagsInputResourceTypeField "route53" = "ResourceType" ∧
    ServiceListTagsOutputTagsField "route53" = "ResourceTagSet.Tags" := by
  decide

/-- Claim C3: a string that is neither in the service table nor `redshift` gets the default
of every resolver; `redshift` is the only case label of any resolver that the service table
lacks, and it yields `DescribeTags` and `ResourceName`. -/
theorem C3_unrecognized_service_defaults (s : String) (hs : s ∉ serviceNames)
    (hr : s ≠ "redshift") :
    (ServiceListTagsFunction s = "ListTagsForResource" ∧
      ServiceListTagsInputIdentifierField s = "ResourceArn" ∧
      ServiceListTagsInputIdentifierRequiresSlice s = "" ∧
      ServiceListTagsInputResourceTypeField s = "" ∧
      ServiceListTagsOutputTagsField s = "Tags") ∧
    ("redshift" ∉ serviceNames ∧
      ServiceListTagsFunction "redshift" = "DescribeTags" ∧
      ServiceListTagsInputIdentifierField "redshift" = "ResourceName") ∧
    (∀ k ∈ functionCases ++ identifierFieldCases ++ requiresSliceCases
        ++ resourceTypeFieldCases ++ outputTagsFieldCases,
      k ∉ serviceNames → k = "redshift") := by
  have key : ∀ k ∈ functionCases ++ identifierFieldCases ++ requiresSliceCases
      ++ resourceTypeFieldCases ++ outputTagsFieldCases,
      k ∉ serviceNames → k = "redshift" := by decide
  have hout : ∀ cs : List String, (∀ k ∈ cs, k ∉ serviceNames → k = "redshift") → s ∉ cs :=
    fun cs hcs hmem => hr (hcs s hmem hs)
  refine ⟨⟨?_, ?_, ?_, ?_, ?_⟩, by decide, key⟩
  · exact function_default s (hout _ (fun k hk => key k (by simp [hk])))
  · exact identifierField_default s (hout _ (fun k hk => key k (by simp [hk])))
  · exact requiresSlice_default s (hout _ (fun k hk => key k (by simp [hk])))
  · exact resourceTypeField_default s (hout _ (fun k hk => key k (by simp [hk])))
  · exact outputTagsField_default s (hout _ (fun k hk => key k (by simp [hk])))

/-- Witness of C3 at the unlisted service name `s3`. -/
theorem C3_unrecognized_service_defaults_witness :
    "s3" ∉ serviceNames ∧ "s3" ≠ "redshift" ∧
    ServiceListTagsFunction "s3" = "ListTagsForResource" ∧
    ServiceListTagsInputIdentifierField "s3" = "ResourceArn" ∧
    ServiceListTagsInputIdentifierRequiresSlice "s3" = "" ∧
    ServiceListTagsInputResourceTypeField "s3" = "" ∧
    ServiceListTagsOutputTagsField "s3" = "Tags" :=
  ⟨by decide, by decide,
    (C3_unrecognized_service_defaults "s3" (by decide) (by decide)).1⟩

/-- Counterexample to C4 as stated: `kms` matches no case of the requires-slice resolver and
no case of the resource-type resolver, and both return the empty string on it; so it is
false that every resolver returns a non-empty string on every input that matches none of its
cases. -/
theorem C4_default_nonempty_counterexample :
    ("kms" ∉ requiresSliceCases ∧ ServiceListTagsInputIdentifierRequiresSlice "kms" = "") ∧
    ("kms" ∉ resourceTypeFieldCases ∧ ServiceListTagsInputResourceTypeField "kms" = "") ∧
    ¬ (∀ s : String,
        (s ∉ functionCases → ServiceListTagsFunction s ≠ "") ∧
        (s ∉ identifierFieldCases → ServiceListTagsInputIdentifierField s ≠ "") ∧
        (s ∉ requiresSliceCases → ServiceListTagsInputIdentifierRequiresSlice s ≠ "") ∧
        (s ∉ resourceTypeFieldCases → ServiceListTagsInputResourceTypeField s ≠ "") ∧
        (s ∉ outputTagsFieldCases → ServiceListTagsOutputTagsField s ≠ "")) :=
  ⟨by decide, by decide, fun h => (h "kms").2.2.1 (by decide) (by decide)⟩

/-- Claim C4, amended: every resolver is a total function, and on an input that matches
none of its cases `ServiceListTagsFunction` returns `ListTagsForResource`,
`ServiceListTagsInputIdentifierField` returns `ResourceArn` and
`ServiceListTagsOutputTagsField` returns `Tags`, none of them empty, while
`ServiceListTagsInputIdentifierRequiresSlice` and `ServiceListTagsInputResourceTypeField`
return the empty string, which the template reads as false. -/
theorem C4_defaults (s : String) :
    (s ∉ functionCases →
      ServiceListTagsFunction s = "ListTagsForResource" ∧ ServiceListTagsFunction s ≠ "") ∧
    (s ∉ identifierFieldCases →
      ServiceListTagsInputIdentifierField s = "ResourceArn" ∧
      ServiceListTagsInputIdentifierField s ≠ "") ∧
    (s ∉ outputTagsFieldCases →
      ServiceListTagsOutputTagsField s = "Tags" ∧ ServiceListTagsOutputTagsField s ≠ "") ∧
    (s ∉ requiresSliceCases →
      ServiceListTagsInputIdentifierRequiresSlice s = "" ∧
      truth (ServiceListTagsInputIdentifierRequiresSlice s) = false) ∧
    (s ∉ resourceTypeFieldCases →
      ServiceListTagsInputResourceTypeField s = "" ∧
      truth (ServiceListTagsInputResourceTypeField s) = false) := by
  refine ⟨fun h => ?_, fun h => ?_, fun h => ?_, fun h => ?_, fun h => ?_⟩
  · rw [function_default s h]; decide
  · rw [identifierField_default s h]; decide
  · rw [outputTagsField_default s h]; decide
  · rw [requiresSlice_default s h]; decide
  · rw [resourceTypeField_default s h]; decide

/-- Witness of the amended C4 at the unlisted service name `s3`. -/
theorem C4_defaults_witness :
    ("s3" ∉ functionCases ∧ ServiceListTagsFunction "s3" = "ListTagsForResource") ∧
    ("s3" ∉ identifierFieldCases ∧ ServiceListTagsInputIdentifierField "s3" = "ResourceArn") ∧
    ("s3" ∉ outputTagsFieldCases ∧ ServiceListTagsOutputTagsField "s3" = "Tags") ∧
    ("s3" ∉ requiresSliceCases ∧ ServiceListTagsInputIdentifierRequiresSlice "s3" = "") ∧
    ("s3" ∉ resourceTypeFieldCases ∧ ServiceListTagsInputResourceTypeField "s3" = "") :=
  ⟨⟨by decide, ((C4_defaults "s3").1 (by decide)).1⟩,
   ⟨by decide, ((C4_defaults "s3").2.1 (by decide)).1⟩,
   ⟨by decide, ((C4_defaults "s3").2.2.1 (by decide)).1⟩,
   ⟨by decide, ((C4_defaults "s3").2.2.2.1 (by decide)).1⟩,
   ⟨by decide, ((C4_defaults "s3").2.2.2.2 (by decide)).1⟩⟩

/-- Claim C7: the overrides listed in the table of the specification are the values the
resolvers return. -/
theorem C7_table_overrides :
    ServiceListTagsFunction "acm" = "ListTagsForCertificate" ∧
    ServiceListTagsFunction "glue" = "GetTags" ∧
    ServiceListTagsFunction "sqs" = "ListQueueTags" ∧
    ServiceListTagsInputIdentifierField "cloudwatchlogs" = "LogGroupName" ∧
    ServiceListTagsInputIdentifierField "kms" = "KeyId" ∧
    ServiceListTagsInputIdentifierField "sqs" = "QueueUrl" ∧
    ServiceListTagsOutputTagsField "elbv2" = "TagDescriptions[0].Tags" ∧
    ServiceListTagsOutputTagsField "route53" = "ResourceTagSet.Tags" := by
  decide

/-- Claim C8: the text rendered from the service table declares exactly one accessor per
service name, named by the capitalized service name followed by `ListTags` (`kms` gives
`KmsListTags`): the table has no duplicate entry, the functions declared in the rendered text
are the accessor names of the sorted table and nothing else, they are pairwise distinct, each
service's accessor is declared once, and their number is the length of the table. The
imported `ServiceClientType` and `ServiceTagPackage` are assumed to return text without a
newline for the services of the table. -/
theorem C8_one_accessor_per_service (E : Imports)
    (hE : ∀ s ∈ serviceNames,
      '\n' ∉ (E.ServiceClientType s).data ∧ '\n' ∉ (E.ServiceTagPackage s).data) :
    serviceNames.Nodup ∧
    declaredFunctions (generate E serviceNames) =
      (sortStrings serviceNames).map (fun s => s.capitalize ++ "ListTags") ∧
    (declaredFunctions (generate E serviceNames)).Nodup ∧
    (declaredFunctions (generate E serviceNames)).length = serviceNames.length ∧
    (∀ s ∈ serviceNames,
      (declaredFunctions (generate E serviceNames)).count (s.capitalize ++ "ListTags") = 1) ∧
    (∀ f ∈ declaredFunctions (generate E serviceNames),
      ∃ s ∈ serviceNames, f = s.capitalize ++ "ListTags") ∧
    (∀ s ∈ serviceNames, accessorName E s = s.capitalize ++ "ListTags") ∧
    accessorName E "kms" = "KmsListTags" ∧
    (declaredFunctions (generate E serviceNames)).count "KmsListTags" = 1 := by
  have hperm := sortStrings_perm serviceNames
  have hname : ∀ s ∈ serviceNames, accessorName E s = s.capitalize ++ "ListTags" :=
    fun s hs => List.map_inj_left.mp (accessorName_serviceNames E) s hs
  have hgood : ∀ s ∈ sortStrings serviceNames, RendersOnLines E s :=
    fun s hs => serviceNames_rendersOnLines E hE s (hperm.mem_iff.mp hs)
  have hdecl : declaredFunctions (generate E serviceNames) =
      (sortStrings serviceNames).map (fun s => s.capitalize ++ "ListTags") := by
    unfold generate
    rw [declaredFunctions_templateExecute E (sortStrings serviceNames) hgood]
    exact List.map_congr_left (fun s hs => hname s (hperm.mem_iff.mp hs))
  have hnd : ((sortStrings serviceNames).map (fun s => s.capitalize ++ "ListTags")).Nodup := by
    have h := accessorName_nodup E
    rw [accessorName_serviceNames] at h
    exact ((hperm.map _).nodup_iff).mpr h
  have hcount : ∀ s ∈ serviceNames,
      ((sortStrings serviceNames).map (fun s => s.capitalize ++ "ListTags")).count
        (s.capitalize ++ "ListTags") = 1 := fun s hs =>
    List.count_eq_one_of_mem hnd
      (List.mem_map_of_mem (fun s => s.capitalize ++ "ListTags") (hperm.mem_iff.mpr hs))
  rw [hdecl]
  refine ⟨serviceNames_nodup, rfl, hnd, ?_, hcount, ?_, hname, rfl, ?_⟩
  · rw [List.length_map]
    exact hperm.length_eq
  · intro f hf
    obtain ⟨s, hs, rfl⟩ := List.mem_map.mp hf
    exact ⟨s, hperm.mem_iff.mp hs, rfl⟩
  · exact hcount "kms" (by decide)

/-- Witness of C8 at the sample imports: both imported functions return the service name,
which contains no newline, and the rendered text declares 82 functions, `KmsListTags` once. -/
theorem C8_one_accessor_per_service_witness :
    (∀ s ∈ serviceNames, '\n' ∉ (sampleImports.ServiceClientType s).data ∧
      '\n' ∉ (sampleImports.ServiceTagPackage s).data) ∧
    (declaredFunctions (generate sampleImports serviceNames)).length = 82 ∧
    (declaredFunctions (generate sampleImports serviceNames)).count "KmsListTags" = 1 :=
  have h := C8_one_accessor_per_service sampleImports (by decide)
  ⟨by decide, h.2.2.2.1.trans (by decide), h.2.2.2.2.2.2.2.2⟩

/-- Claim C9: for every rearrangement `p` of the service table, sorting `p` gives the list
that sorting the table gives; that list is strictly ascending and is a rearrangement of the
table with the same elements; any ascending rearrangement of `p`, whatever routine produced
it, is that same list; the table itself is not sorted (`guardduty` stands right before
`greengrass`); so the rendered text is the same for every input order. -/
theorem C9_sorted_order_independent (E : Imports) (p : List String)
    (hp : p.Perm serviceNames) :
    sortStrings p = sortStrings serviceNames ∧
    List.Pairwise (fun a b => stringLess a b = true) (sortStrings serviceNames) ∧
    (sortStrings serviceNames).Perm serviceNames ∧
    (∀ s, s ∈ sortStrings p ↔ s ∈ serviceNames) ∧
    (∀ q : List String, q.Perm p →
      List.Pairwise (fun a b => stringLess b a = false) q → q = sortStrings serviceNames) ∧
    (["guardduty", "greengrass"] <:+: serviceNames ∧
      stringLess "greengrass" "guardduty" = true ∧
      sortStrings serviceNames ≠ serviceNames) ∧
    generate E p = generate E serviceNames := by
  have hsort : sortStrings p = sortStrings serviceNames := sortStrings_congr hp
  refine ⟨hsort, sortStrings_pairwise_less serviceNames serviceNames_nodup,
    sortStrings_perm serviceNames, ?_, ?_, ⟨by decide, by decide, by decide⟩, ?_⟩
  · intro s
    rw [hsort]
    exact (sortStrings_perm serviceNames).mem_iff
  · intro q hq hs
    have hle : List.Sorted (· ≤ ·) q :=
      List.Pairwise.imp (fun h => (stringLess_eq_false_iff_le _ _).mp h) hs
    exact (sortStrings_unique p q hq hle).trans hsort
  · unfold generate
    rw [hsort]

/-- Witness of C9 at the reversed service table. -/
theorem C9_sorted_order_independent_witness :
    serviceNames.reverse.Perm serviceNames ∧
    sortStrings serviceNames.reverse = sortStrings serviceNames ∧
    generate sampleImports serviceNames.reverse = generate sampleImports serviceNames :=
  have h := C9_sorted_order_independent sampleImports serviceNames.reverse
    (List.reverse_perm serviceNames)
  ⟨List.reverse_perm serviceNames, h.1, h.2.2.2.2.2.2⟩

/-- Claim C10: the requires-slice resolver returns a non-empty string exactly when the
output tags path contains the element index `[0]`. -/
theorem C10_slice_iff_indexed_output (s : String) :
    ServiceListTagsInputIdentifierRequiresSlice s ≠ "" ↔
      Contains (ServiceListTagsOutputTagsField s) "[0]" = true := by
  by_cases h : s ∈ requiresSliceCases ++ outputTagsFieldCases
  · revert s
    decide
  · rw [List.mem_append, not_or] at h
    rw [requiresSlice_default s h.1, outputTagsField_default s h.2]
    decide

end ListTags
